import Mathlib

/-!
Verification development for the SageScript transcription worker
(`src/index.ts`, `src/ffmpeg.ts`, the whisper transcription module and the
db/storage libraries).  The worker drains a queue of audio transcription jobs:
it claims a job, downloads the audio, transcodes it, transcribes it, persists
the transcript, and maintains retry bookkeeping on failure.  Two consumption
adapters exist: a Service Bus push adapter and a polling pull adapter.

The development is a shallow embedding: the persistent `transcription_jobs`
table and the `transcripts` table are modelled as explicit state (`World`),
JavaScript exceptions as `Except JsErr`, and the external collaborators
(blob download, ffmpeg, the transcription API, the logging inserts) as an
oracle (`Env`) saying for each call whether it succeeds or which error it
throws.  Timestamps are naturals (milliseconds, as produced by `Date.now()`).
-/

/-! ## Small JavaScript string helpers

`strIncl hay needle` is `hay.includes(needle)` (contiguous substring test);
`jsTruthy` is JavaScript truthiness of a nullable string (null, undefined and
the empty string are falsy). -/

/-- `leadEq needle hay` is true when `needle` is an initial run of `hay`. -/
def leadEq : List Char → List Char → Bool
  | [], _ => true
  | _ :: _, [] => false
  | a :: as, b :: bs => a == b && leadEq as bs

/-- Contiguous substring test on character lists, as in `String.includes`. -/
def hasSub : List Char → List Char → Bool
  | [], needle => needle.isEmpty
  | c :: t, needle => leadEq needle (c :: t) || hasSub t needle

/-- JavaScript `hay.includes(needle)`. -/
def strIncl (hay needle : String) : Bool :=
  hasSub hay.data needle.data

/-- JavaScript truthiness of a nullable string value: `null`/`undefined` and
the empty string are falsy, every other string is truthy. -/
def jsTruthy : Option String → Bool
  | none => false
  | some s => !(s == "")

/-! ## Error values and the failure classifier (src/index.ts, classifyError) -/

/-- A JavaScript error value as the worker observes it: possibly lacking a
`message` field (the code only ever reads `err?.message`). -/
structure JsErr where
  message : Option String
deriving DecidableEq

/-- String constant tested by the classifier. -/
def rateLimitNeedle : String := "rate limit"

/-- String constant tested by the classifier. -/
def timeoutNeedle : String := "timeout"

/-- Embedding of `classifyError` (src/index.ts lines 146-150): an error is
retryable exactly when its message contains the substring `rate limit` or the
substring `timeout`; an error without a message is not retryable. -/
def classifyError (e : JsErr) : Bool :=
  match e.message with
  | some m => strIncl m rateLimitNeedle || strIncl m timeoutNeedle
  | none => false

/-! ## The job data model and the persistent world -/

/-- The `status` column of `transcription_jobs`. -/
inductive JobStatus
  | pending
  | processing
  | completed
  | failed
deriving DecidableEq

/-- A row of the `transcription_jobs` table (the columns the worker reads or
writes).  Nullable columns are `Option`s; timestamps are milliseconds. -/
structure JobRow where
  id : String
  audio_path : Option String
  organization_id : Option String
  user_id : Option String
  entra_oid : Option String
  status : JobStatus
  retry_count : Option Nat
  max_retries : Option Nat
  next_attempt_at : Option Nat
  last_heartbeat_at : Option Nat
  last_error_message : Option String
  last_error_at : Option Nat
  completed_at : Option Nat
  output_transcript_id : Option Nat
deriving DecidableEq

/-- A row of the `transcripts` table (the columns `insertTranscript` writes;
the `segments` parameter is always the constant `[]` in the worker). -/
structure Transcript where
  job_id : String
  organization_id : Option String
  text : String
deriving DecidableEq

/-- The persistent state the worker manipulates: the `transcription_jobs`
table, the `transcripts` table, and an append-only list of logged events
standing for the `workflow_events` / `ai_usage_events` / `system_events`
inserts. -/
structure World where
  store : List JobRow
  transcripts : List Transcript
  events : List String
deriving DecidableEq

/-- First row with the given id (`SELECT ... WHERE id = $1`, `rows[0]`). -/
def rowOf : List JobRow → String → Option JobRow
  | [], _ => none
  | r :: t, i => if r.id = i then some r else rowOf t i

/-- `UPDATE ... WHERE id = $n`: rewrite every row with the given id. -/
def updById (i : String) (f : JobRow → JobRow) : List JobRow → List JobRow
  | [] => []
  | r :: t => (if r.id = i then f r else r) :: updById i f t

/-! ## Failure handling (src/index.ts, handleJobFailure) -/

/-- The row update performed by `handleJobFailure` (src/index.ts lines
152-182).  The retry bookkeeping (`retry_count`, `max_retries`) is taken from
the in-memory `job` argument; the update is applied to a stored row `r`.
If the error is retryable and `retry_count + 1` is within `max_retries`, the
row returns to `pending` with the incremented count and an exponential-backoff
`next_attempt_at` of `now + 2 ^ (retry_count + 1)` minutes; otherwise the row
becomes `failed`, leaving `retry_count` untouched. -/
def handleJobFailureRow (job : JobRow) (e : JsErr) (now : Nat) (r : JobRow) : JobRow :=
  let nrc := job.retry_count.getD 0 + 1
  if classifyError e ∧ nrc ≤ job.max_retries.getD 3 then
    { r with
      status := JobStatus.pending
      retry_count := some nrc
      next_attempt_at := some (now + 2 ^ nrc * 60000)
      last_error_message := e.message
      last_error_at := some now }
  else
    { r with
      status := JobStatus.failed
      last_error_message := e.message
      last_error_at := some now }

/-- `handleJobFailure` as a world transition: the SQL `UPDATE` targets the
rows whose id is `job.id`. -/
def handleJobFailureApply (job : JobRow) (e : JsErr) (now : Nat) (w : World) : World :=
  { w with store := updById job.id (handleJobFailureRow job e now) w.store }

/-! ## The environment oracle for one processJob run

Each external call the pipeline awaits is represented by a field saying
whether it succeeds or which error it throws.  `now` stands for the clock. -/

/-- Oracle for one run of the coordinator and one queue-message delivery. -/
structure Env where
  now : Nat
  hbWriteFails : Bool
  logStartFails : Option JsErr
  logMissingFails : Option JsErr
  downloadFails : Option JsErr
  transcodeFails : Option JsErr
  transcribeResult : Except JsErr String
  logUsageFails : Option JsErr
  insertTranscriptFails : Option JsErr
  logCompletedFails : Option JsErr
  markCompletedFails : Option JsErr
  logErrorEventFails : Bool

/-- Observable heartbeat bookkeeping of one `processJob` run: whether the
interval timer was created, how many times it was cleared, the period it was
created with, and whether the download step was reached. -/
structure PTrace where
  hbStarted : Bool
  hbStops : Nat
  hbPeriodMs : Option Nat
  downloadAttempted : Bool
deriving DecidableEq

/-- Event strings standing for the rows the logging helpers insert. -/
def evStarted : String := "workflow:transcribing_started"

/-- Event recorded by `logSystemEvent` when user/org are missing. -/
def evMissingUser : String := "system:missing_user_org"

/-- Event recorded by `logAIUsage`. -/
def evUsage : String := "ai:transcription"

/-- Event recorded by `logWorkflow` on completion. -/
def evCompleted : String := "workflow:transcribing_completed"

/-- Event recorded when a heartbeat write fails (`console.error`, swallowed). -/
def evHbFailed : String := "system:heartbeat_failed"

/-- Event recorded by `logSystemEvent` when a job fails. -/
def evJobFailed : String := "system:worker_job_failed"

/-- The validation error message thrown by `processJob` when `audio_path` is
missing: `Job ${job.id} missing audio_path`. -/
def missingAudioMsg (i : String) : String :=
  "Job " ++ i ++ " missing audio_path"

/-- `job.entra_oid ?? job.user_id`, then the `userId && organizationId`
truthiness test guarding the workflow/usage logging calls. -/
def jobHasUser (job : JobRow) : Bool :=
  jsTruthy (match job.entra_oid with | some s => some s | none => job.user_id)
    && jsTruthy job.organization_id

/-- The first awaited logging call of `processJob` (lines 197-211):
`logWorkflow(transcribing_started)` when user and organization are present,
otherwise `logSystemEvent(missing user/org)`.  Neither call is wrapped in a
try/catch, so a failure here is thrown out of `processJob`. -/
def startLogOracle (job : JobRow) (env : Env) : Option JsErr :=
  if jobHasUser job then env.logStartFails else env.logMissingFails

/-- One firing of the heartbeat interval (lines 214-221): a row update of
`last_heartbeat_at`, with a failure swallowed by `.catch` (it only produces a
log line, never an exception). -/
def applyHbTick (jobId : String) (env : Env) (w : World) : World :=
  if env.hbWriteFails then { w with events := w.events ++ [evHbFailed] }
  else { w with store := updById jobId (fun r => { r with last_heartbeat_at := some env.now }) w.store }

/-- The `markJobCompleted` row update (lines 131-140). -/
def completeRowUpd (now tid : Nat) (r : JobRow) : JobRow :=
  { r with
    status := JobStatus.completed
    completed_at := some now
    output_transcript_id := some tid }

/-- The body of `processJob` from the heartbeat start onward (lines 213-282):
hard validation of `audio_path`, download, transcode, transcribe, usage
logging, transcript insertion, completion logging, and `markJobCompleted`.
Every step is awaited; the first failure aborts the rest.  The last component
records whether the download step was reached. -/
def pipelineBody (job : JobRow) (hasU : Bool) (env : Env) (w0 : World) :
    World × Except JsErr Unit × Bool :=
  let w := applyHbTick job.id env w0
  if !(jsTruthy job.audio_path) then
    (w, Except.error ⟨some (missingAudioMsg job.id)⟩, false)
  else
    match env.downloadFails with
    | some e => (w, Except.error e, true)
    | none =>
      match env.transcodeFails with
      | some e => (w, Except.error e, true)
      | none =>
        match env.transcribeResult with
        | Except.error e => (w, Except.error e, true)
        | Except.ok text =>
          match (if hasU then env.logUsageFails else none) with
          | some e => (w, Except.error e, true)
          | none =>
            let w1 := if hasU then { w with events := w.events ++ [evUsage] } else w
            match env.insertTranscriptFails with
            | some e => (w1, Except.error e, true)
            | none =>
              let w2 := { w1 with
                transcripts := w1.transcripts ++ [⟨job.id, job.organization_id, text⟩] }
              match (if hasU then env.logCompletedFails else none) with
              | some e => (w2, Except.error e, true)
              | none =>
                let w3 := if hasU then { w2 with events := w2.events ++ [evCompleted] } else w2
                match env.markCompletedFails with
                | some e => (w3, Except.error e, true)
                | none =>
                  let w4 := { w3 with
                    store := updById job.id (completeRowUpd env.now w3.transcripts.length) w3.store }
                  (w4, Except.ok (), true)

/-- Embedding of `processJob` (src/index.ts lines 188-289).  The initial
workflow/system logging happens before the heartbeat interval is created; the
`finally` block clears the interval exactly when it was created, which the
trace records as `hbStops`. -/
def processJob (job : JobRow) (env : Env) (w : World) :
    World × Except JsErr Unit × PTrace :=
  match startLogOracle job env with
  | some e => (w, Except.error e, ⟨false, 0, none, false⟩)
  | none =>
    let w1 := { w with
      events := w.events ++ [if jobHasUser job then evStarted else evMissingUser] }
    let p := pipelineBody job (jobHasUser job) env w1
    (p.1, p.2.1, ⟨true, 1, some 30000, p.2.2⟩)

/-! ## The Service Bus (queue) adapter (src/index.ts, serviceBusWorker) -/

/-- Disposition of a received Service Bus message. -/
inductive SbOutcome
  | ack
  | abandon
  | deadLetter (reason : String) (desc : Option String)
deriving DecidableEq

/-- Dead-letter reason used by the worker. -/
def maxRetriesReason : String := "MaxRetriesExceeded"

/-- First row with the given id and status `pending` (the conditional claim
of `fetchJobById`, lines 295-305). -/
def fetchFind : List JobRow → String → Option JobRow
  | [], _ => none
  | r :: t, i =>
    if r.id = i ∧ r.status = JobStatus.pending then some r else fetchFind t i

/-- The row update of the conditional claim: `status = processing`,
`last_heartbeat_at = NOW()`. -/
def claimRowUpd (now : Nat) (r : JobRow) : JobRow :=
  { r with status := JobStatus.processing, last_heartbeat_at := some now }

/-- The `UPDATE ... WHERE id = $1 AND status = pending` part of
`fetchJobById`. -/
def fetchUpd (i : String) (now : Nat) : List JobRow → List JobRow
  | [] => []
  | r :: t =>
    (if r.id = i ∧ r.status = JobStatus.pending then claimRowUpd now r else r)
      :: fetchUpd i now t

/-- Embedding of `fetchJobById` (lines 295-305): a conditional claim that
updates the row only when it is still `pending` and returns the claimed row,
or returns nothing (the `RETURNING` set is empty) when the job is missing or
in any other status. -/
def fetchJobById (jobId : String) (now : Nat) (w : World) : World × Option JobRow :=
  ({ w with store := fetchUpd jobId now w.store },
   (fetchFind w.store jobId).map (claimRowUpd now))

/-- The `logSystemEvent(...).catch(console.error)` call in both failure
paths: the event row is appended unless the insert fails, and a failure is
swallowed. -/
def jobFailedEventWorld (env : Env) (w : World) : World :=
  if env.logErrorEventFails then w else { w with events := w.events ++ [evJobFailed] }

/-- The catch block of the Service Bus message handler (lines 361-390):
log the failure (swallowed), re-read `retry_count`/`max_retries` for the job
from the store, run `handleJobFailure` on the re-read row, then dead-letter
the message with reason `MaxRetriesExceeded` when the re-read (pre-update)
bookkeeping satisfies `retry_count >= max_retries`, otherwise abandon it.
A missing row abandons the message without a state change. -/
def sbFailureBranch (jobId : String) (e : JsErr) (env : Env) (w : World) :
    World × SbOutcome :=
  let w1 := jobFailedEventWorld env w
  match rowOf w1.store jobId with
  | none => (w1, SbOutcome.abandon)
  | some row =>
    let w2 := handleJobFailureApply row e env.now w1
    if row.max_retries.getD 3 ≤ row.retry_count.getD 0 then
      (w2, SbOutcome.deadLetter maxRetriesReason e.message)
    else
      (w2, SbOutcome.abandon)

/-- Embedding of the Service Bus `messageHandler` (lines 340-391) for a
well-formed message naming `jobId`: conditionally claim the job; when the
claim returns nothing (job missing, or not `pending` any more) the message is
acknowledged and nothing else happens; otherwise the job is processed, with
acknowledgement on success and the failure branch otherwise.  The boolean of
the result records whether the pipeline was invoked. -/
def messageHandler (jobId : String) (env : Env) (w : World) :
    World × SbOutcome × Bool :=
  match fetchJobById jobId env.now w with
  | (w1, none) => (w1, SbOutcome.ack, false)
  | (w1, some job) =>
    let p := processJob job env w1
    match p.2.1 with
    | Except.ok _ => (p.1, SbOutcome.ack, true)
    | Except.error e =>
      let q := sbFailureBranch jobId e env p.1
      (q.1, q.2, true)

/-! ## The polling adapter failure path (src/index.ts, pollingWorkerLoop) -/

/-- The catch block of `pollingWorkerLoop` for a failure after a job was
assigned (lines 444-463): log the failure (swallowed) and call
`handleJobFailure` with the in-memory `job` object that `claimJob` returned
at the start of processing; the store is not re-read. -/
def pollFailurePath (job : JobRow) (e : JsErr) (env : Env) (w : World) : World :=
  handleJobFailureApply job e env.now (jobFailedEventWorld env w)

/-! ## Whisper post-processing (src/unnamed/part_001, flagConsecutiveDuplicates)

The transcription module splits the service text on runs of newlines
(`text.split(/\n+/)`), skips blank paragraphs, trims the rest, flags a
paragraph equal to the previous retained paragraph (with any existing flag
stripped) and rejoins with blank lines. -/

/-- Whitespace class used by JavaScript `trim()` and the `\s` regex class
(the ASCII members, which are the only ones the worker strings contain). -/
def wsChar (c : Char) : Bool :=
  c == ' ' || c == '\t' || c == '\n' || c == '\r' || c == '\x0B' || c == '\x0C'

/-- Drop leading whitespace. -/
def ltrimWs (l : List Char) : List Char := l.dropWhile wsChar

/-- Drop trailing whitespace. -/
def rtrimWs (l : List Char) : List Char := (l.reverse.dropWhile wsChar).reverse

/-- JavaScript `String.trim()` on a character list. -/
def jsTrim (l : List Char) : List Char := rtrimWs (ltrimWs l)

/-- The duplicate-review flag text, without the leading space. -/
def dupFlag : String := "[DUPLICATE - FLAGGED FOR REVIEW]"

/-- The flag as characters. -/
def dupFlagChars : List Char := dupFlag.data

/-- The template-literal suffix appended to a flagged paragraph
(a space followed by the flag). -/
def flagSuffix : List Char := ' ' :: dupFlagChars

/-- `needle` is a trailing run of `hay`. -/
def sufEq (needle hay : List Char) : Bool := leadEq needle.reverse hay.reverse

/-- The regex replace `prev.replace(/\s*\[DUPLICATE - FLAGGED FOR REVIEW\]\s*$/, '')`:
when, after discarding trailing whitespace, the string ends with the flag,
remove the flag together with the whitespace on both sides of it; otherwise
leave the string unchanged. -/
def stripFlag (l : List Char) : List Char :=
  let u := rtrimWs l
  if sufEq dupFlagChars u then rtrimWs (u.take (u.length - dupFlagChars.length))
  else l

/-- `prevClean` of the loop: strip any flag, then `trim()`. -/
def cleanView (l : List Char) : List Char := jsTrim (stripFlag l)

/-- `result[result.length - 1]`, with the empty string when the list is
empty (the `result.length > 0 ? ... : ''` expression). -/
def lastD : List (List Char) → List Char
  | [] => []
  | [x] => x
  | _ :: y :: t => lastD (y :: t)

mutual
/-- JavaScript `text.split(/\n+/)` on characters: maximal runs of newlines
separate the segments; a leading or trailing run contributes one empty
segment.  `jsSplitSeg` scans inside a segment. -/
def jsSplitSeg : List Char → List (List Char)
  | [] => [[]]
  | c :: t =>
    if c = '\n' then [] :: jsSplitGap t
    else
      match jsSplitSeg t with
      | s :: r => (c :: s) :: r
      | [] => [[c]]
/-- Companion of `jsSplitSeg`, scanning inside a separator run. -/
def jsSplitGap : List Char → List (List Char)
  | [] => [[]]
  | c :: t =>
    if c = '\n' then jsSplitGap t
    else
      match jsSplitSeg t with
      | s :: r => (c :: s) :: r
      | [] => [[c]]
end

/-- The `for` loop of `flagConsecutiveDuplicates` (part_001 lines 48-61),
with `result` as the accumulator: skip blank paragraphs, flag a paragraph
whose trimmed text equals the cleaned previous entry, push the rest as-is. -/
def flagLoop : List (List Char) → List (List Char) → List (List Char)
  | [], result => result
  | p :: rest, result =>
    let trimmed := jsTrim p
    if trimmed = [] then flagLoop rest result
    else if trimmed = cleanView (lastD result) then
      flagLoop rest (result ++ [trimmed ++ flagSuffix])
    else flagLoop rest (result ++ [trimmed])

/-- The paragraph separator of `result.join('\n\n')`. -/
def parSep : List Char := ['\n', '\n']

/-- Embedding of `flagConsecutiveDuplicates` (part_001 lines 44-64). -/
def flagConsecutiveDuplicates (s : String) : String :=
  String.mk (List.intercalate parSep (flagLoop (jsSplitSeg s.data) []))

/-- The text `transcribeAudio` returns (and which `processJob` persists via
`insertTranscript`): the post-processed service output
(part_001 lines 91-97). -/
def transcribeAudioText (raw : String) : String :=
  flagConsecutiveDuplicates raw

/-! ### Specification-side description of the post-processing (for C10)

Modelled from the claim text: paragraphs are split on newlines, blank
paragraphs are dropped, each surviving paragraph is trimmed, a paragraph
whose trimmed text equals the previous retained paragraph (with any existing
flag stripped) is suffixed with the flag, and the paragraphs are rejoined
with blank lines. -/

/-- Split on single newline characters. -/
def splitSingle : List Char → List (List Char)
  | [] => [[]]
  | c :: t =>
    if c = '\n' then [] :: splitSingle t
    else
      match splitSingle t with
      | s :: r => (c :: s) :: r
      | [] => [[c]]

/-- Trim every paragraph and drop the blank ones. -/
def trimKeep (l : List (List Char)) : List (List Char) :=
  (l.map jsTrim).filter (fun q => decide (q ≠ []))

/-- Walk over the surviving trimmed paragraphs carrying the cleaned previous
retained paragraph; flag a paragraph equal to it. -/
def specWalk (prevClean : List Char) : List (List Char) → List (List Char)
  | [] => []
  | q :: rest =>
    if q = prevClean then
      (q ++ flagSuffix) :: specWalk (cleanView (q ++ flagSuffix)) rest
    else q :: specWalk (cleanView q) rest

/-- The post-processed text as described by the specification sentence. -/
def specPostProcess (s : String) : String :=
  String.mk (List.intercalate parSep (specWalk [] (trimKeep (splitSingle s.data))))

/-- Intermediate form of the loop: the same walk as `specWalk` but carried
with the accumulated result list, consuming already-trimmed paragraphs. -/
def flagWalkAcc : List (List Char) → List (List Char) → List (List Char)
  | result, [] => result
  | result, q :: rest =>
    if q = cleanView (lastD result) then flagWalkAcc (result ++ [q ++ flagSuffix]) rest
    else flagWalkAcc (result ++ [q]) rest

/-! ## Concrete fixtures used by witnesses and counterexamples -/

/-- A well-formed claimed job. -/
def jobOk : JobRow :=
  { id := "job-1", audio_path := some "audio/a.mp3",
    organization_id := some "org-1", user_id := some "user-1",
    entra_oid := none, status := JobStatus.processing,
    retry_count := some 0, max_retries := some 3,
    next_attempt_at := none, last_heartbeat_at := none,
    last_error_message := none, last_error_at := none,
    completed_at := none, output_transcript_id := none }

/-- An oracle on which every external call succeeds. -/
def okEnv : Env :=
  { now := 1000, hbWriteFails := false, logStartFails := none,
    logMissingFails := none, downloadFails := none, transcodeFails := none,
    transcribeResult := Except.ok "hello", logUsageFails := none,
    insertTranscriptFails := none, logCompletedFails := none,
    markCompletedFails := none, logErrorEventFails := false }

/-- A world holding the claimed job. -/
def wOk : World := { store := [jobOk], transcripts := [], events := [] }

/-- A database-style error (classified non-retryable). -/
def dbErr : JsErr := ⟨some "connection terminated"⟩

/-- A rate-limit error (classified retryable). -/
def rlErr : JsErr := ⟨some "rate limit exceeded"⟩

/-- A storage error (classified non-retryable). -/
def nrErr : JsErr := ⟨some "storage failure"⟩

/-- The claimed job after three recorded retries (`retry_count = max_retries`). -/
def exhaustRow : JobRow := { jobOk with retry_count := some 3 }

/-- Authoritative stored row whose retry count has advanced to 5. -/
def rowAuth : JobRow := { jobOk with id := "job-9", retry_count := some 5 }

/-- Stale in-memory copy of the same job, still carrying `retry_count = 0`. -/
def rowStale : JobRow := { rowAuth with retry_count := some 0 }

/-- World holding the authoritative row. -/
def wAuth : World := { store := [rowAuth], transcripts := [], events := [] }

/-- A job without an audio path whose id happens to contain `timeout`. -/
def jobNoAudio : JobRow := { jobOk with id := "timeout", audio_path := none }

/-- World holding that job. -/
def wNoAudio : World := { store := [jobNoAudio], transcripts := [], events := [] }

/-- An already-completed job (for redelivery of its queue message). -/
def jobDone : JobRow := { jobOk with status := JobStatus.completed }

/-- World holding the completed job. -/
def wDone : World := { store := [jobDone], transcripts := [], events := [] }

/-- A job without an audio path and an ordinary id. -/
def jobMissing : JobRow := { jobOk with id := "job-42", audio_path := none }

/-! ## Helper lemmas -/

theorem leadEq_self_app (x y : List Char) : leadEq x (x ++ y) = true := by
  induction x with
  | nil => rfl
  | cons a as ih => simp [leadEq, ih]

theorem hasSub_sandwich (pre mid post : List Char) :
    hasSub (pre ++ (mid ++ post)) mid = true := by
  induction pre with
  | nil =>
    rw [List.nil_append]
    cases h : mid ++ post with
    | nil =>
      have hm : mid = [] := by
        cases mid with
        | nil => rfl
        | cons a t => simp at h
      rw [hm]
      rfl
    | cons c t =>
      show (leadEq mid (c :: t) || hasSub t mid) = true
      rw [← h, leadEq_self_app, Bool.true_or]
  | cons c t ih =>
    rw [List.cons_append]
    show (leadEq mid (c :: (t ++ (mid ++ post))) || hasSub (t ++ (mid ++ post)) mid) = true
    rw [ih, Bool.or_true]

theorem strIncl_sandwich (a b c : String) : strIncl (a ++ b ++ c) b = true := by
  obtain ⟨la⟩ := a
  obtain ⟨lb⟩ := b
  obtain ⟨lc⟩ := c
  show hasSub (la ++ lb ++ lc) lb = true
  rw [List.append_assoc]
  exact hasSub_sandwich la lb lc

theorem handleJobFailureRow_id (job : JobRow) (e : JsErr) (now : Nat) (r : JobRow) :
    (handleJobFailureRow job e now r).id = r.id := by
  by_cases hc : classifyError e = true ∧ job.retry_count.getD 0 + 1 ≤ job.max_retries.getD 3 <;>
    simp [handleJobFailureRow, hc]

theorem rowOf_some_id (l : List JobRow) (i : String) (r : JobRow)
    (h : rowOf l i = some r) : r.id = i := by
  induction l with
  | nil => simp [rowOf] at h
  | cons a t ih =>
    rw [rowOf] at h
    split at h
    · cases h
      assumption
    · exact ih h

theorem rowOf_updById (i : String) (f : JobRow → JobRow) (l : List JobRow)
    (hf : ∀ r, (f r).id = r.id) :
    rowOf (updById i f l) i = (rowOf l i).map f := by
  induction l with
  | nil => rfl
  | cons a t ih =>
    rw [updById, rowOf, rowOf]
    by_cases ha : a.id = i
    · simp [ha, hf]
    · simp [ha, ih]

/-! ## C1: the backoff decision -/

/-- C1: for every job failure handled by the coordinator, when the error is
classified retryable and the incremented retry count stays within
`max_retries`, the job row is transitioned to `pending` with
`retry_count = current + 1` and `next_attempt_at = now + 2 ^ (current + 1)`
minutes (60000 ms per minute); in every other case the row is transitioned
to `failed`. -/
theorem handleJobFailure_backoff (job : JobRow) (e : JsErr) (now r m : Nat)
    (hr : job.retry_count = some r) (hm : job.max_retries = some m) :
    (classifyError e = true → r + 1 ≤ m →
      handleJobFailureRow job e now job =
        { job with
          status := JobStatus.pending
          retry_count := some (r + 1)
          next_attempt_at := some (now + 2 ^ (r + 1) * 60000)
          last_error_message := e.message
          last_error_at := some now })
    ∧ ((classifyError e = false ∨ m < r + 1) →
      handleJobFailureRow job e now job =
        { job with
          status := JobStatus.failed
          last_error_message := e.message
          last_error_at := some now }) := by
  constructor
  · intro hc hle
    simp [handleJobFailureRow, hr, hm, hc, hle]
  · intro hor
    simp only [handleJobFailureRow, hr, hm, Option.getD_some]
    rw [if_neg]
    rintro ⟨hc, hle⟩
    rcases hor with h | h
    · rw [h] at hc
      cases hc
    · omega

/-- Witness for C1 at the spec scenario: `retry_count = 0`, `max_retries = 3`,
rate-limit error, `now = 1000` ms; the job is rescheduled to `pending` with
`retry_count = 1` and a 2-minute backoff. -/
theorem handleJobFailure_backoff_w :
    handleJobFailureRow jobOk rlErr 1000 jobOk =
      { jobOk with
        status := JobStatus.pending
        retry_count := some 1
        next_attempt_at := some (1000 + 2 ^ 1 * 60000)
        last_error_message := some "rate limit exceeded"
        last_error_at := some 1000 } :=
  (handleJobFailure_backoff jobOk rlErr 1000 0 3 rfl rfl).1 rfl (by decide)

/-! ## C2: the condition under which a job reaches failed -/

/-- C2 counterexample: a retryable (rate-limit) failure on a job with
`retry_count = 3 = max_retries` transitions the row to `failed` while its
`retry_count` stays 3, which is not strictly greater than `max_retries`,
and the error was classified retryable — so the claimed disjunction
(`retry_count > max_retries` or non-retryable) fails at this transition. -/
theorem failed_at_max_retry_budget :
    (handleJobFailureRow exhaustRow rlErr 1000 exhaustRow).status = JobStatus.failed
    ∧ classifyError rlErr = true
    ∧ (handleJobFailureRow exhaustRow rlErr 1000 exhaustRow).retry_count = some 3
    ∧ exhaustRow.max_retries = some 3
    ∧ ¬ (3 > 3) := by
  refine ⟨rfl, rfl, rfl, rfl, ?_⟩
  decide

/-- C2 (amended): whenever `handleJobFailure` — the only transition into
`failed` — marks a row `failed`, either the error was classified
non-retryable or the incremented retry count exceeds the budget, that is
`max_retries <= retry_count` (defaults 3 and 0 for missing columns). -/
theorem failed_only_when_exhausted_or_fatal (job r2 : JobRow) (e : JsErr) (now : Nat)
    (h : (handleJobFailureRow job e now r2).status = JobStatus.failed) :
    classifyError e = false ∨ job.max_retries.getD 3 ≤ job.retry_count.getD 0 := by
  by_cases hc : classifyError e = true
  · right
    by_contra hlt
    push_neg at hlt
    have hp : (handleJobFailureRow job e now r2).status = JobStatus.pending := by
      have hcond : job.retry_count.getD 0 + 1 ≤ job.max_retries.getD 3 := by omega
      simp [handleJobFailureRow, hc, hcond]
    rw [h] at hp
    cases hp
  · left
    exact Bool.not_eq_true _ ▸ (by simpa using hc)

/-- Witness for C2 (amended) at a non-retryable storage error. -/
theorem failed_only_when_exhausted_or_fatal_w :
    classifyError nrErr = false ∨ (3 : Nat) ≤ 0 :=
  failed_only_when_exhausted_or_fatal jobOk jobOk nrErr 1000 rfl

/-! ## C7: the failure classifier -/

/-- C7: `classifyError` is total by construction (a Lean function) and
side-effect free; it returns true exactly when the error carries a message
containing `rate limit` or `timeout`, and false for every other input —
in particular for an error whose message field is absent. -/
theorem classifyError_iff (e : JsErr) :
    classifyError e = true ↔
      ∃ m, e.message = some m ∧
        (strIncl m rateLimitNeedle = true ∨ strIncl m timeoutNeedle = true) := by
  obtain ⟨msg⟩ := e
  cases msg with
  | none => simp [classifyError]
  | some m => simp [classifyError, Bool.or_eq_true]

/-! ## C8: awaited logging writes gate the job outcome (code bug) -/

/-- C8 (code-bug evidence): with every pipeline step succeeding, a failure of
the initial `logWorkflow(transcribing_started)` insert — which the spec calls
fire-and-forget — aborts `processJob`: the run returns the logging error, the
job row stays `processing` (it is never completed), and no transcript is
written, whereas the identical run with the insert succeeding completes the
job and persists one transcript.  The emission failure therefore changes the
job outcome. -/
theorem start_log_failure_changes_outcome :
    ((processJob jobOk { okEnv with logStartFails := some dbErr } wOk).2.1
        = Except.error dbErr)
    ∧ ((processJob jobOk okEnv wOk).2.1 = Except.ok ())
    ∧ ((rowOf (processJob jobOk { okEnv with logStartFails := some dbErr } wOk).1.store
          "job-1").map JobRow.status = some JobStatus.processing)
    ∧ ((rowOf (processJob jobOk okEnv wOk).1.store "job-1").map JobRow.status
        = some JobStatus.completed)
    ∧ ((processJob jobOk { okEnv with logStartFails := some dbErr } wOk).1.transcripts = [])
    ∧ ((processJob jobOk okEnv wOk).1.transcripts
        = [{ job_id := "job-1", organization_id := some "org-1", text := "hello" }]) :=
  ⟨rfl, rfl, rfl, rfl, rfl, rfl⟩

/-! ## C9: missing audio path -/

/-- C9 counterexample: on a job whose id is the string `timeout` and whose
`audio_path` is absent, the validation error message `Job timeout missing
audio_path` contains the job id — and therefore matches the classifier's
`timeout` substring test, is classified retryable, and `handleJobFailure`
transitions the job to `pending` with `retry_count` incremented to 1, not to
`failed` with `retry_count` unchanged as the claim states for every job. -/
theorem missing_audio_retryable_for_timeout_id :
    ((processJob jobNoAudio okEnv wNoAudio).2.1
        = Except.error ⟨some (missingAudioMsg "timeout")⟩)
    ∧ classifyError ⟨some (missingAudioMsg "timeout")⟩ = true
    ∧ ((handleJobFailureRow jobNoAudio ⟨some (missingAudioMsg "timeout")⟩ 1000 jobNoAudio).status
        = JobStatus.pending)
    ∧ ((handleJobFailureRow jobNoAudio ⟨some (missingAudioMsg "timeout")⟩ 1000 jobNoAudio).retry_count
        = some 1) :=
  ⟨rfl, rfl, rfl, rfl⟩

/-- C9 (amended): for every job with `audio_path` absent — provided the
initial audit write does not itself throw, and provided the job id does not
contain the substrings `rate limit` or `timeout` — the coordinator fails
before attempting the download, with an error whose message contains the job
id; that error is classified non-retryable, and `handleJobFailure` then
transitions the row to `failed` with `retry_count` untouched. -/
theorem missing_audio_fails_before_download
    (job : JobRow) (env : Env) (w : World) (r2 : JobRow) (now : Nat)
    (ha : job.audio_path = none)
    (hs : startLogOracle job env = none)
    (h1 : strIncl (missingAudioMsg job.id) rateLimitNeedle = false)
    (h2 : strIncl (missingAudioMsg job.id) timeoutNeedle = false) :
    ((processJob job env w).2.1 = Except.error ⟨some (missingAudioMsg job.id)⟩)
    ∧ ((processJob job env w).2.2.downloadAttempted = false)
    ∧ (strIncl (missingAudioMsg job.id) job.id = true)
    ∧ (classifyError ⟨some (missingAudioMsg job.id)⟩ = false)
    ∧ (handleJobFailureRow job ⟨some (missingAudioMsg job.id)⟩ now r2 =
        { r2 with
          status := JobStatus.failed
          last_error_message := some (missingAudioMsg job.id)
          last_error_at := some now }) := by
  have hcl : classifyError ⟨some (missingAudioMsg job.id)⟩ = false := by
    simp [classifyError, h1, h2]
  refine ⟨?_, ?_, ?_, hcl, ?_⟩
  · simp [processJob, hs, pipelineBody, ha, jsTruthy]
  · simp [processJob, hs, pipelineBody, ha, jsTruthy]
  · show strIncl ("Job " ++ job.id ++ " missing audio_path") job.id = true
    exact strIncl_sandwich _ _ _
  · simp [handleJobFailureRow, hcl]

/-- Witness for C9 (amended) at a job with an ordinary id. -/
theorem missing_audio_fails_before_download_w :
    ((processJob jobMissing okEnv wOk).2.1
        = Except.error ⟨some (missingAudioMsg "job-42")⟩)
    ∧ ((processJob jobMissing okEnv wOk).2.2.downloadAttempted = false)
    ∧ (strIncl (missingAudioMsg "job-42") "job-42" = true)
    ∧ (classifyError ⟨some (missingAudioMsg "job-42")⟩ = false)
    ∧ (handleJobFailureRow jobMissing ⟨some (missingAudioMsg "job-42")⟩ 1000 jobMissing =
        { jobMissing with
          status := JobStatus.failed
          last_error_message := some (missingAudioMsg "job-42")
          last_error_at := some 1000 }) :=
  missing_audio_fails_before_download jobMissing okEnv wOk jobMissing 1000 rfl rfl rfl rfl

/-! ## C5: which retry bookkeeping the failure paths read -/

/-- C5 counterexample: the polling failure path applies `handleJobFailure`
to the in-memory job object.  With a stale in-memory copy carrying
`retry_count = 0` while the stored row has advanced to `retry_count = 5`
(max 3), a retryable failure is rescheduled to `pending` with
`retry_count = 1`, whereas running the handler on the authoritative stored
row would mark the job `failed` — so the polling path does not re-fetch the
authoritative bookkeeping before classifying, contrary to the claim. -/
theorem poll_failure_uses_stale_copy :
    rowStale.id = rowAuth.id
    ∧ ((rowOf (pollFailurePath rowStale rlErr okEnv wAuth).store "job-9").map JobRow.status
        = some JobStatus.pending)
    ∧ ((rowOf (pollFailurePath rowStale rlErr okEnv wAuth).store "job-9").bind JobRow.retry_count
        = some 1)
    ∧ ((rowOf (handleJobFailureApply rowAuth rlErr okEnv.now wAuth).store "job-9").map JobRow.status
        = some JobStatus.failed) :=
  ⟨rfl, rfl, rfl, rfl⟩

/-- C5 (amended): only the queue-adapter failure path re-fetches the job
before classifying — its resulting world is `handleJobFailure` applied with
the row read back from the store; the polling failure path instead applies
`handleJobFailure` with the in-memory job claimed at the start of
processing, writing the decision computed from that copy over the stored
row. -/
theorem failure_bookkeeping_paths :
    (∀ (jobId : String) (e : JsErr) (env : Env) (w : World) (row : JobRow),
        rowOf (jobFailedEventWorld env w).store jobId = some row →
        (sbFailureBranch jobId e env w).1
          = handleJobFailureApply row e env.now (jobFailedEventWorld env w))
    ∧ (∀ (job : JobRow) (e : JsErr) (env : Env) (w : World) (r2 : JobRow),
        rowOf (jobFailedEventWorld env w).store job.id = some r2 →
        rowOf (pollFailurePath job e env w).store job.id
          = some (handleJobFailureRow job e env.now r2)) := by
  constructor
  · intro jobId e env w row h
    simp only [sbFailureBranch, h]
    split <;> rfl
  · intro job e env w r2 h
    show rowOf (updById job.id (handleJobFailureRow job e env.now)
        (jobFailedEventWorld env w).store) job.id = _
    rw [rowOf_updById _ _ _ (fun r => handleJobFailureRow_id job e env.now r), h]
    rfl

/-- Witness for C5 (amended), applying both halves at the concrete world. -/
theorem failure_bookkeeping_paths_w :
    ((sbFailureBranch "job-9" rlErr okEnv wAuth).1
        = handleJobFailureApply rowAuth rlErr okEnv.now (jobFailedEventWorld okEnv wAuth))
    ∧ (rowOf (pollFailurePath rowStale rlErr okEnv wAuth).store "job-9"
        = some (handleJobFailureRow rowStale rlErr okEnv.now rowAuth)) :=
  ⟨failure_bookkeeping_paths.1 "job-9" rlErr okEnv wAuth rowAuth rfl,
   failure_bookkeeping_paths.2 rowStale rlErr okEnv wAuth rowAuth rfl⟩

/-! ## C6: dead-lettering exactly on an exhausted retry budget -/

/-- C6: in the queue-adapter failure branch, the message is dead-lettered
with reason `MaxRetriesExceeded` exactly when, after this failure has been
recorded, the job row is `failed` with its retry budget exhausted
(`retry_count >= max_retries`, defaults 0 and 3 for missing columns); in
every other failure case — job missing, failure rescheduled for retry, or a
non-retryable failure with budget remaining — the message is abandoned. -/
theorem deadletter_iff_budget_exhausted (jobId : String) (e : JsErr) (env : Env) (w : World) :
    (∃ d, (sbFailureBranch jobId e env w).2 = SbOutcome.deadLetter maxRetriesReason d)
    ↔ (∃ row, rowOf (sbFailureBranch jobId e env w).1.store jobId = some row
        ∧ row.status = JobStatus.failed
        ∧ row.max_retries.getD 3 ≤ row.retry_count.getD 0) := by
  cases h : rowOf (jobFailedEventWorld env w).store jobId with
  | none =>
    simp [sbFailureBranch, h]
  | some row =>
    have hid : row.id = jobId := rowOf_some_id _ _ _ h
    have hsb : sbFailureBranch jobId e env w =
        (handleJobFailureApply row e env.now (jobFailedEventWorld env w),
         if row.max_retries.getD 3 ≤ row.retry_count.getD 0 then
           SbOutcome.deadLetter maxRetriesReason e.message
         else SbOutcome.abandon) := by
      simp only [sbFailureBranch, h]
      split <;> rfl
    have hrow : rowOf (handleJobFailureApply row e env.now
          (jobFailedEventWorld env w)).store jobId
        = some (handleJobFailureRow row e env.now row) := by
      show rowOf (updById row.id (handleJobFailureRow row e env.now)
          (jobFailedEventWorld env w).store) jobId = _
      rw [hid, rowOf_updById _ _ _ (fun r => handleJobFailureRow_id row e env.now r), h]
      rfl
    rw [hsb]
    dsimp only
    rw [hrow]
    by_cases hge : row.max_retries.getD 3 ≤ row.retry_count.getD 0
    · have hcond : ¬ (classifyError e = true
          ∧ row.retry_count.getD 0 + 1 ≤ row.max_retries.getD 3) := by
        rintro ⟨_, hle⟩
        omega
      have hfr : handleJobFailureRow row e env.now row =
          { row with
            status := JobStatus.failed
            last_error_message := e.message
            last_error_at := some env.now } := by
        simp [handleJobFailureRow, hcond]
      rw [if_pos hge]
      constructor
      · intro _
        exact ⟨_, rfl, by rw [hfr], by rw [hfr]; exact hge⟩
      · intro _
        exact ⟨e.message, rfl⟩
    · rw [if_neg hge]
      constructor
      · rintro ⟨d, hd⟩
        cases hd
      · rintro ⟨row2, hr2, hstat, hbud⟩
        injection hr2 with hinj
        subst hinj
        by_cases hcl : classifyError e = true
            ∧ row.retry_count.getD 0 + 1 ≤ row.max_retries.getD 3
        · have hp : (handleJobFailureRow row e env.now row).status = JobStatus.pending := by
            simp [handleJobFailureRow, hcl]
          rw [hp] at hstat
          cases hstat
        · have hkeep : (handleJobFailureRow row e env.now row).retry_count = row.retry_count
              ∧ (handleJobFailureRow row e env.now row).max_retries = row.max_retries := by
            simp [handleJobFailureRow, hcl]
          rw [hkeep.1, hkeep.2] at hbud
          exact absurd hbud hge

/-! ## C3: redelivery of a message for a job that is no longer pending -/

theorem fetchFind_none (l : List JobRow) (i : String)
    (h : ∀ r ∈ l, r.id = i → r.status ≠ JobStatus.pending) :
    fetchFind l i = none := by
  induction l with
  | nil => rfl
  | cons a t ih =>
    rw [fetchFind, if_neg]
    · exact ih (fun r hr => h r (List.mem_cons_of_mem a hr))
    · rintro ⟨h1, h2⟩
      exact h a (List.mem_cons_self a t) h1 h2

theorem fetchUpd_noop (l : List JobRow) (i : String) (now : Nat)
    (h : ∀ r ∈ l, r.id = i → r.status ≠ JobStatus.pending) :
    fetchUpd i now l = l := by
  induction l with
  | nil => rfl
  | cons a t ih =>
    rw [fetchUpd, if_neg, ih (fun r hr => h r (List.mem_cons_of_mem a hr))]
    rintro ⟨h1, h2⟩
    exact h a (List.mem_cons_self a t) h1 h2

/-- C3: delivering a queue message whose job id has no `pending` row in the
store — already completed, already claimed into `processing`, already
failed, or missing — acknowledges the message, invokes no pipeline, and
leaves the entire world (job rows, transcripts, logged events) unchanged, so
redelivery produces no state change and no duplicate transcript. -/
theorem redelivery_not_pending_noop (jobId : String) (env : Env) (w : World)
    (h : ∀ r ∈ w.store, r.id = jobId → r.status ≠ JobStatus.pending) :
    messageHandler jobId env w = (w, SbOutcome.ack, false) := by
  unfold messageHandler fetchJobById
  rw [fetchFind_none _ _ h, fetchUpd_noop _ _ _ h]
  rfl

/-- Witness for C3: redelivery of a message for the already-completed job. -/
theorem redelivery_not_pending_noop_w :
    (∀ r ∈ wDone.store, r.id = "job-1" → r.status ≠ JobStatus.pending)
    ∧ messageHandler "job-1" okEnv wDone = (wDone, SbOutcome.ack, false) :=
  ⟨by decide, redelivery_not_pending_noop "job-1" okEnv wDone (by decide)⟩

/-! ## C4: heartbeat lifecycle -/

theorem pipelineBody_res_congr (job : JobRow) (hasU : Bool)
    (n1 n2 : Nat) (hb1 hb2 : Bool) (ls1 ls2 lm1 lm2 : Option JsErr)
    (df tf : Option JsErr) (tr : Except JsErr String)
    (lu it lc mc : Option JsErr) (le1 le2 : Bool) (w w2 : World) :
    (pipelineBody job hasU ⟨n1, hb1, ls1, lm1, df, tf, tr, lu, it, lc, mc, le1⟩ w).2.1
      = (pipelineBody job hasU ⟨n2, hb2, ls2, lm2, df, tf, tr, lu, it, lc, mc, le2⟩ w2).2.1 := by
  cases hA : jsTruthy job.audio_path <;>
    cases df <;> cases tf <;> cases tr <;> cases hasU <;>
    cases lu <;> cases it <;> cases lc <;> cases mc <;>
    simp [pipelineBody, hA]

/-- C4: in every run of `processJob`, over every success or failure path of
the oracle, the heartbeat interval is cleared exactly once whenever it was
created (and never otherwise) — the `finally` cleanup; the interval is
always created with the fixed 30000 ms period; and a failing heartbeat
write is swallowed: flipping the heartbeat-write oracle never changes the
run's outcome. -/
theorem heartbeat_guaranteed_cleanup (job : JobRow) (env : Env) (w : World) (b : Bool) :
    ((processJob job env w).2.2.hbStops
        = if (processJob job env w).2.2.hbStarted then 1 else 0)
    ∧ ((processJob job env w).2.2.hbPeriodMs
        = if (processJob job env w).2.2.hbStarted then some 30000 else none)
    ∧ ((processJob job { env with hbWriteFails := b } w).2.1
        = (processJob job env w).2.1) := by
  refine ⟨?_, ?_, ?_⟩
  · cases h : startLogOracle job env <;> simp [processJob, h]
  · cases h : startLogOracle job env <;> simp [processJob, h]
  · obtain ⟨n, hb, ls, lm, df, tf, tr, lu, it, lc, mc, le⟩ := env
    have hs : startLogOracle job ⟨n, b, ls, lm, df, tf, tr, lu, it, lc, mc, le⟩
        = startLogOracle job ⟨n, hb, ls, lm, df, tf, tr, lu, it, lc, mc, le⟩ := rfl
    cases h : startLogOracle job ⟨n, hb, ls, lm, df, tf, tr, lu, it, lc, mc, le⟩ with
    | some e => simp [processJob, h, hs]
    | none =>
      simp only [processJob, h, hs]
      exact pipelineBody_res_congr job (jobHasUser job) n n b hb ls ls lm lm
        df tf tr lu it lc mc le le _ _

/-! ## C10: the persisted transcript text -/

theorem lastD_concat (l : List (List Char)) (a : List Char) :
    lastD (l ++ [a]) = a := by
  induction l with
  | nil => rfl
  | cons x t ih =>
    cases t with
    | nil => rfl
    | cons y s => exact ih

theorem trimKeep_cons (p : List Char) (l : List (List Char)) :
    trimKeep (p :: l) = if jsTrim p = [] then trimKeep l else jsTrim p :: trimKeep l := by
  by_cases h : jsTrim p = [] <;> simp [trimKeep, h]

theorem flagLoop_cons (p : List Char) (ps acc : List (List Char)) :
    flagLoop (p :: ps) acc =
      if jsTrim p = [] then flagLoop ps acc
      else if jsTrim p = cleanView (lastD acc) then
        flagLoop ps (acc ++ [jsTrim p ++ flagSuffix])
      else flagLoop ps (acc ++ [jsTrim p]) := rfl

theorem flagWalkAcc_cons (acc : List (List Char)) (q : List Char) (qs : List (List Char)) :
    flagWalkAcc acc (q :: qs) =
      if q = cleanView (lastD acc) then flagWalkAcc (acc ++ [q ++ flagSuffix]) qs
      else flagWalkAcc (acc ++ [q]) qs := rfl

theorem flagLoop_eq_walkAcc (ps : List (List Char)) (acc : List (List Char)) :
    flagLoop ps acc = flagWalkAcc acc (trimKeep ps) := by
  induction ps generalizing acc with
  | nil => rfl
  | cons p rest ih =>
    rw [trimKeep_cons, flagLoop_cons]
    by_cases ht : jsTrim p = []
    · rw [if_pos ht, if_pos ht, ih]
    · rw [if_neg ht, if_neg ht, flagWalkAcc_cons]
      by_cases hd : jsTrim p = cleanView (lastD acc)
      · rw [if_pos hd, if_pos hd, ih]
      · rw [if_neg hd, if_neg hd, ih]

theorem walkAcc_eq_specWalk (qs acc : List (List Char)) :
    flagWalkAcc acc qs = acc ++ specWalk (cleanView (lastD acc)) qs := by
  induction qs generalizing acc with
  | nil => simp [flagWalkAcc, specWalk]
  | cons q rest ih =>
    by_cases hd : q = cleanView (lastD acc)
    · calc flagWalkAcc acc (q :: rest)
          = flagWalkAcc (acc ++ [q ++ flagSuffix]) rest := by simp [flagWalkAcc, hd]
        _ = (acc ++ [q ++ flagSuffix])
              ++ specWalk (cleanView (lastD (acc ++ [q ++ flagSuffix]))) rest := ih _
        _ = acc ++ ((q ++ flagSuffix) :: specWalk (cleanView (q ++ flagSuffix)) rest) := by
              rw [lastD_concat]
              simp
        _ = acc ++ specWalk (cleanView (lastD acc)) (q :: rest) := by
              simp [specWalk, hd]
    · calc flagWalkAcc acc (q :: rest)
          = flagWalkAcc (acc ++ [q]) rest := by simp [flagWalkAcc, hd]
        _ = (acc ++ [q]) ++ specWalk (cleanView (lastD (acc ++ [q]))) rest := ih _
        _ = acc ++ (q :: specWalk (cleanView q) rest) := by
              rw [lastD_concat]
              simp
        _ = acc ++ specWalk (cleanView (lastD acc)) (q :: rest) := by
              simp [specWalk, hd]

theorem split_heads_eq (t : List Char) :
    ∃ x r r2, splitSingle t = x :: r ∧ jsSplitSeg t = x :: r2 := by
  induction t with
  | nil => exact ⟨[], [], [], rfl, rfl⟩
  | cons c s ih =>
    obtain ⟨x, r, r2, h1, h2⟩ := ih
    by_cases hc : c = '\n'
    · subst hc
      exact ⟨[], splitSingle s, jsSplitGap s, by simp [splitSingle], by simp [jsSplitSeg]⟩
    · refine ⟨c :: x, r, r2, ?_, ?_⟩
      · simp [splitSingle, hc, h1]
      · simp [jsSplitSeg, hc, h2]

theorem trimKeep_split_eq (l : List Char) :
    trimKeep (jsSplitSeg l) = trimKeep (splitSingle l)
    ∧ trimKeep (jsSplitGap l) = trimKeep (splitSingle l) := by
  induction l with
  | nil => exact ⟨rfl, rfl⟩
  | cons c s ih =>
    obtain ⟨ihSeg, ihGap⟩ := ih
    have hSeg : trimKeep (jsSplitSeg (c :: s)) = trimKeep (splitSingle (c :: s)) := by
      by_cases hc : c = '\n'
      · subst hc
        rw [show jsSplitSeg ('\n' :: s) = [] :: jsSplitGap s from by simp [jsSplitSeg]]
        rw [show splitSingle ('\n' :: s) = [] :: splitSingle s from by simp [splitSingle]]
        have hz : jsTrim ([] : List Char) = [] := rfl
        rw [trimKeep_cons, trimKeep_cons, if_pos hz, if_pos hz]
        exact ihGap
      · obtain ⟨x, r, r2, h1, h2⟩ := split_heads_eq s
        rw [show jsSplitSeg (c :: s) = (c :: x) :: r2 from by simp [jsSplitSeg, hc, h2]]
        rw [show splitSingle (c :: s) = (c :: x) :: r from by simp [splitSingle, hc, h1]]
        rw [trimKeep_cons, trimKeep_cons]
        have htails : trimKeep r2 = trimKeep r := by
          have hmid := ihSeg
          rw [h1, h2, trimKeep_cons, trimKeep_cons] at hmid
          by_cases hx : jsTrim x = []
          · rw [if_pos hx, if_pos hx] at hmid
            exact hmid
          · rw [if_neg hx, if_neg hx] at hmid
            injection hmid
        rw [htails]
    refine ⟨hSeg, ?_⟩
    by_cases hc : c = '\n'
    · subst hc
      rw [show jsSplitGap ('\n' :: s) = jsSplitGap s from by simp [jsSplitGap]]
      rw [show splitSingle ('\n' :: s) = [] :: splitSingle s from by simp [splitSingle]]
      have hz : jsTrim ([] : List Char) = [] := rfl
      rw [trimKeep_cons, if_pos hz]
      exact ihGap
    · rw [show jsSplitGap (c :: s) = jsSplitSeg (c :: s) from by simp [jsSplitGap, jsSplitSeg, hc]]
      exact hSeg

/-- C10: the text `transcribeAudio` returns — the text `processJob` persists
to the transcript — is the post-processed service output, which equals the
specification-side description: split on newlines, drop blank paragraphs,
trim the rest, suffix a paragraph equal to the previous retained paragraph
(with any existing flag stripped) with the duplicate-review flag, and rejoin
with blank lines. -/
theorem transcript_text_postprocessed (s : String) :
    transcribeAudioText s = specPostProcess s := by
  unfold transcribeAudioText flagConsecutiveDuplicates specPostProcess
  congr 1
  rw [flagLoop_eq_walkAcc, walkAcc_eq_specWalk, (trimKeep_split_eq s.data).1]
  rw [show cleanView (lastD ([] : List (List Char))) = [] from rfl, List.nil_append]
